import Mathlib

/-!
Verification of the hierarchical configuration override engine of
`backend/config.go` (MMseqs2-App backend).

The Go code is shallowly embedded:
* the statically-declared config structs (`ConfigRoot`, `ConfigServer`, ...)
  become Lean structures;
* Go's runtime reflection view of those structs is made explicit as the
  inductive `JValue` (a tree of string/int/uint/bool leaves, tagged records and
  nilable pointers), with `reflectRoot` playing the role of `reflect.ValueOf`;
* in-place mutation is replaced by state passing: every operation returns the
  (possibly mutated) tree together with `Option String`, the error message
  (`none` = Go's `nil` error);
* the Go standard-library helpers used by the code (`strconv.ParseInt`,
  `strconv.ParseBool`, `strings.TrimLeft`, `strings.Split`,
  `filepath.Join`/`Clean`) are modelled from their documented behaviour.
-/

namespace ConfigGo

/-! ## Models of the Go standard-library helpers

String manipulation is written over the character list `String.data` with
structural recursion, so that every definition evaluates inside the kernel. -/

/-- Model of `strings.HasPrefix(s, pre)`. -/
def hasPfx (s pre : String) : Bool := pre.data.isPrefixOf s.data

/-- Model of `strings.TrimLeft(s, "-")`: drop every leading dash. -/
def trimLeftDashes (s : String) : String := ⟨s.data.dropWhile (· = '-')⟩

/-- Model of `strings.TrimLeft(s, "~")`: drop every leading tilde. -/
def trimLeftTildes (s : String) : String := ⟨s.data.dropWhile (· = '~')⟩

/-- Worker for `strings.Split(s, sep)` with a one-character separator: the list of
substrings between occurrences of `sep` (`""` splits to `[""]`). -/
def splitOnCharAux (sep : Char) : List Char → List Char → List (List Char)
  | acc, [] => [acc.reverse]
  | acc, c :: cs =>
    if c = sep then acc.reverse :: splitOnCharAux sep [] cs
    else splitOnCharAux sep (c :: acc) cs

/-- Model of `strings.Split(s, sep)` for a one-character separator. -/
def splitOnChar (sep : Char) (s : String) : List String :=
  (splitOnCharAux sep [] s.data).map fun cs => ⟨cs⟩

/-- Join a list of strings with a separator (`strings.Join`). -/
def joinSep (sep : String) : List String → String
  | [] => ""
  | [x] => x
  | x :: xs => x ++ sep ++ joinSep sep xs

/-- The message of a Go `strconv.NumError`, as produced by `err.Error()`:
`strconv.<Fn>: parsing "<input>": <reason>`.  (`strconv.Quote` is modelled for
plain printable input, which is all the development evaluates it on.) -/
def numErr (fn input reason : String) : String :=
  "strconv." ++ fn ++ ": parsing \"" ++ input ++ "\": " ++ reason

/-- Value of a decimal digit character, `none` for a non-digit. -/
def decDigit (c : Char) : Option Nat :=
  if '0' ≤ c ∧ c ≤ '9' then some (c.toNat - '0'.toNat) else none

/-- Value of a non-empty all-decimal-digit character list, `none` otherwise. -/
def decDigits : List Char → Option Nat
  | [] => none
  | [c] => decDigit c
  | c :: cs =>
    match decDigit c, decDigits cs with
    | some d, some n => some (d * 10 ^ cs.length + n)
    | _, _ => none

/-- The digits-and-range part of `strconv.ParseInt(s, 10, 64)`, after the
sign has been consumed: the remaining characters must be non-empty decimal
digits and the signed value must fit in a signed 64-bit integer. -/
def parseIntCore (s : String) (neg : Bool) (digits : List Char) :
    Except String Int :=
  match decDigits digits with
  | none => .error (numErr "ParseInt" s "invalid syntax")
  | some n =>
    if neg then
      if n ≤ 2 ^ 63 then .ok (-(n : Int))
      else .error (numErr "ParseInt" s "value out of range")
    else
      if n ≤ 2 ^ 63 - 1 then .ok (n : Int)
      else .error (numErr "ParseInt" s "value out of range")

/-- Model of `strconv.ParseInt(s, 10, 64)`: optional sign, then non-empty decimal
digits; the value must fit in a signed 64-bit integer.  The error is the
message Go's error would render to. -/
def parseInt64 (s : String) : Except String Int :=
  match s.data with
  | [] => .error (numErr "ParseInt" s "invalid syntax")
  | c :: rest =>
    if c = '-' then parseIntCore s true rest
    else if c = '+' then parseIntCore s false rest
    else parseIntCore s false (c :: rest)

/-- Model of `strconv.ParseUint(s, 10, 64)`: no sign, non-empty decimal digits, value
below `2^64`. -/
def parseUint64 (s : String) : Except String Nat :=
  match decDigits s.data with
  | none => .error (numErr "ParseUint" s "invalid syntax")
  | some n =>
    if n ≤ 2 ^ 64 - 1 then .ok n
    else .error (numErr "ParseUint" s "value out of range")

/-- Model of `strconv.ParseBool`: it accepts exactly the twelve spellings listed in its
documentation. -/
def parseBool (s : String) : Except String Bool :=
  if s = "1" ∨ s = "t" ∨ s = "T" ∨ s = "TRUE" ∨ s = "true" ∨ s = "True" then
    .ok true
  else if s = "0" ∨ s = "f" ∨ s = "F" ∨ s = "FALSE" ∨ s = "false" ∨ s = "False" then
    .ok false
  else
    .error (numErr "ParseBool" s "invalid syntax")

/-- One pass of `filepath.Clean`'s component processing: skip empty and `.`
components, resolve `..` against the accumulator (lexically). -/
def cleanComps (rooted : Bool) : List String → List String → List String
  | acc, [] => acc.reverse
  | acc, comp :: rest =>
    if comp = "" ∨ comp = "." then cleanComps rooted acc rest
    else if comp = ".." then
      match acc with
      | [] => if rooted then cleanComps rooted [] rest
              else cleanComps rooted [".."] rest
      | top :: below =>
        if top = ".." then cleanComps rooted (comp :: acc) rest
        else cleanComps rooted below rest
    else cleanComps rooted (comp :: acc) rest

/-- Model of `path/filepath.Clean` (unix): lexical cleaning of a path. -/
def goClean (p : String) : String :=
  if p = "" then "." else
  let rooted := hasPfx p "/"
  let comps := cleanComps rooted [] (splitOnChar '/' p)
  let joined := joinSep "/" comps
  if rooted then "/" ++ joined
  else if joined = "" then "." else joined

/-- Model of `filepath.Join(a, b)`: join the non-empty arguments with a separator and
clean the result; all-empty input gives the empty string. -/
def goJoin (a b : String) : String :=
  if a = "" ∧ b = "" then ""
  else if a = "" then goClean b
  else if b = "" then goClean a
  else goClean (a ++ "/" ++ b)

/-! ## The reflection view of the config tree

`JValue` is the image of the Go structs under `reflect`: records keep their
fields in declaration order, each paired with its `json` tag; an optional
sub-record (`*ConfigAuth`) is a pointer that carries the zero value of its
element type (what `reflect.New` would allocate) beside its current,
possibly-nil, target. -/

inductive JValue where
  | str (s : String)
  | int (i : Int)
  | uint (n : Nat)
  | bool (b : Bool)
  | record (fields : List (String × JValue))
  | ptr (zeroVal : JValue) (val : Option JValue)
  deriving Repr

/-! ## The Go config structs (`config.go:55-105`) -/

structure ConfigPaths where
  Databases : String
  Results   : String
  Temporary : String
  Mmseqs    : String

structure ConfigRedis where
  Network  : String
  Address  : String
  Password : String
  DbIndex  : Int

structure ConfigMailTemplate where
  Subject : String
  Body    : String

structure ConfigMailTemplates where
  Success : ConfigMailTemplate
  Timeout : ConfigMailTemplate
  Error   : ConfigMailTemplate

structure ConfigMail where
  Transport : String
  Sender    : String
  Templates : ConfigMailTemplates

structure ConfigAuth where
  Username : String
  Password : String

/-- Struct `ConfigServer`; the Go field `PathPrefix` (json tag `pathprefix`) is named
`PathPref` here. -/
structure ConfigServer where
  Address     : String
  PathPref    : String
  DbManagment : Bool
  CORS        : Bool
  Auth        : Option ConfigAuth

structure ConfigRoot where
  Server  : ConfigServer
  Paths   : ConfigPaths
  Redis   : ConfigRedis
  Mail    : ConfigMail
  Verbose : Bool

/-- The zero value of `ConfigAuth` (what `reflect.New(ConfigAuth)` yields). -/
def zeroAuth : ConfigAuth := { Username := "", Password := "" }

def reflectAuth (a : ConfigAuth) : JValue :=
  .record [("username", .str a.Username), ("password", .str a.Password)]

def reflectServer (s : ConfigServer) : JValue :=
  .record [("address", .str s.Address),
           ("pathprefix", .str s.PathPref),
           ("dbmanagment", .bool s.DbManagment),
           ("cors", .bool s.CORS),
           ("auth", .ptr (reflectAuth zeroAuth) (s.Auth.map reflectAuth))]

def reflectPaths (p : ConfigPaths) : JValue :=
  .record [("databases", .str p.Databases),
           ("results", .str p.Results),
           ("temporary", .str p.Temporary),
           ("mmseqs", .str p.Mmseqs)]

def reflectRedis (r : ConfigRedis) : JValue :=
  .record [("network", .str r.Network),
           ("address", .str r.Address),
           ("password", .str r.Password),
           ("index", .int r.DbIndex)]

def reflectMailTemplate (t : ConfigMailTemplate) : JValue :=
  .record [("subject", .str t.Subject), ("body", .str t.Body)]

def reflectMailTemplates (t : ConfigMailTemplates) : JValue :=
  .record [("success", reflectMailTemplate t.Success),
           ("timeout", reflectMailTemplate t.Timeout),
           ("error", reflectMailTemplate t.Error)]

def reflectMail (m : ConfigMail) : JValue :=
  .record [("type", .str m.Transport),
           ("sender", .str m.Sender),
           ("templates", reflectMailTemplates m.Templates)]

def reflectRoot (c : ConfigRoot) : JValue :=
  .record [("server", reflectServer c.Server),
           ("paths", reflectPaths c.Paths),
           ("redis", reflectRedis c.Redis),
           ("mail", reflectMail c.Mail),
           ("verbose", .bool c.Verbose)]

/-! ## The override engine (`config.go:197-277`)

`setNodeValue` walks the tree.  Go mutates through `reflect.Value`s that alias
the caller's memory, so the embedding threads the updated node back alongside
the `error` result: the first component is the tree as the Go caller observes
it after the call, whether or not an error was returned. -/

/-- The leaf `switch v.Kind()` of `setNodeValue` (`config.go:210-239`),
reached when the path is exhausted. -/
def setLeaf (node : JValue) (value : String) : JValue × Option String :=
  match node with
  | .record _ => (node, some "Leaf node is a struct")
  | .int _ =>
    match parseInt64 value with
    | .ok i => (.int i, none)
    | .error e => (node, some e)
  | .uint _ =>
    match parseUint64 value with
    | .ok n => (.uint n, none)
    | .error e => (node, some e)
  | .bool _ =>
    match parseBool value with
    | .ok b => (.bool b, none)
    | .error e => (node, some e)
  | .str _ => (.str value, none)
  | .ptr _ _ => (node, some "Leaf node type not implemented")

/-- The pointer step of `setNodeValue` (`config.go:251-258`): a nil pointer is
replaced by a freshly allocated zero value, then dereferenced. -/
def derefNode : JValue → JValue
  | .ptr zeroVal none => zeroVal
  | .ptr _ (some w) => w
  | v => v

/-- Write-through of the (possibly re-allocated) dereferenced node: the nil
check in `config.go:252-256` already updated the parent's pointer via
`v.Set(n)`, so a pointer node keeps whatever the walk produced. -/
def rewrap : JValue → JValue → JValue
  | .ptr zeroVal _, w => .ptr zeroVal (some w)
  | _, w => w

/-- The field scan of `config.go:264-274`: first field, in declaration order,
whose `json` tag equals the segment; tags `""` and `"-"` are skipped.  Returns
the field's index and value. -/
def findTag (fields : List (String × JValue)) (seg : String) :
    Option (Nat × JValue) :=
  match fields with
  | [] => none
  | (tag, f) :: rest =>
    if tag = "" ∨ tag = "-" then (findTag rest seg).map fun p => (p.1 + 1, p.2)
    else if tag = seg then some (0, f)
    else (findTag rest seg).map fun p => (p.1 + 1, p.2)

/-- Function `setNodeValue` (`config.go:203-277`): DFS in the config tree to set the
new value. -/
def setNodeValue (node : JValue) (path : List String) (value : String) :
    JValue × Option String :=
  match path with
  | [] => setLeaf node value
  | seg :: rest =>
    match derefNode node with
    | .record fields =>
      match findTag fields seg with
      | some (i, f) =>
        let r := setNodeValue f rest value
        (rewrap node (.record (fields.set i (seg, r.1))), r.2)
      | none => (rewrap node (.record fields), some "Path not found in config")
    | w => (rewrap node w, some "Node is not a struct")

/-- Function `setParameter` (`config.go:197-200`): split the key on `.` and walk. -/
def setParameter (c : JValue) (key value : String) : JValue × Option String :=
  setNodeValue c (splitOnChar '.' key) value

/-- The token loop of `ReadParameters` (`config.go:171-188`): `pending` is the
`key`/`inParameter` pair.  `Except` separates the loop's early `return err`
exits (carrying the mutated tree) from falling off the end of the argument
list (carrying the tree and the still-pending flag, if any). -/
def runTokens (c : JValue) (pending : Option String) (args : List String) :
    Except (JValue × String) (JValue × Option String) :=
  match args with
  | [] => .ok (c, pending)
  | arg :: rest =>
    if hasPfx arg "-" then
      match pending with
      | some _ => .error (c, "Invalid Parameter String")
      | none => runTokens c (some (trimLeftDashes arg)) rest
    else
      match pending with
      | none => .error (c, "Invalid Parameter String")
      | some key =>
        match setParameter c key arg with
        | (c2, some e) => .error (c2, e)
        | (c2, none) => runTokens c2 none rest

/-- Method `ReadParameters` (`config.go:168-195`) on the reflection view of the tree:
run the token loop from an empty pending state, then apply the final
`inParameter` check of `config.go:190-192`. -/
def readParametersTree (c : JValue) (args : List String) :
    JValue × Option String :=
  match runTokens c none args with
  | .error (c2, e) => (c2, some e)
  | .ok (c2, some _) => (c2, some "Invalid Parameter String")
  | .ok (c2, none) => (c2, none)

/-- Method `(*ConfigRoot).ReadParameters` applied to a typed config: the Go method
receives `c` by pointer and mutates it; here the mutated reflection tree is
returned beside the error. -/
def ReadParameters (c : ConfigRoot) (args : List String) :
    JValue × Option String :=
  readParametersTree (reflectRoot c) args

/-! ## `ReadConfig` path normalization (`config.go:142-148`) -/

/-- One iteration of the normalization loop: a value starting with `~` has all
leading `~` stripped (`strings.TrimLeft`) and the rest joined onto the anchor
directory; anything else is untouched. -/
def normalizeOnePath (relativeTo p : String) : String :=
  if hasPfx p "~" then goJoin relativeTo (trimLeftTildes p) else p

/-- The path-normalization step of `ReadConfig` (`config.go:142-148`), applied
to the already-deserialized config: exactly the `Databases`, `Results` and
`Mmseqs` fields are normalized. -/
def readConfigNormalize (c : ConfigRoot) (relativeTo : String) : ConfigRoot :=
  { c with Paths := { c.Paths with
      Databases := normalizeOnePath relativeTo c.Paths.Databases,
      Results := normalizeOnePath relativeTo c.Paths.Results,
      Mmseqs := normalizeOnePath relativeTo c.Paths.Mmseqs } }

/-- The config described by `defaultFileContent` (`config.go:15-53`) after
deserialization (fields absent from the document at their zero values),
before path normalization. -/
def defaultDecoded : ConfigRoot :=
  { Server := { Address := "127.0.0.1:8081", PathPref := "/api/",
                DbManagment := false, CORS := true, Auth := none },
    Paths := { Databases := "~databases", Results := "~jobs",
               Temporary := "", Mmseqs := "~mmseqs" },
    Redis := { Network := "tcp", Address := "localhost:6379",
               Password := "", DbIndex := 0 },
    Mail := { Transport := "null", Sender := "mail@example.org",
              Templates := { Success := { Subject := "Done -- %s", Body := "%s" },
                             Timeout := { Subject := "Timeout -- %s", Body := "%s" },
                             Error := { Subject := "Error -- %s", Body := "%s" } } },
    Verbose := true }

/-! ## Spec-side definitions

Definitions in this block follow the specification's words, for comparison
against the code-derived definitions above. -/

/-- The flag/value alternation rule as the spec words it: scanning left to
right with a pending-flag bit, the stream is malformed when a flag token
arrives while one is pending, a value token arrives with none pending, or a
flag is still pending at end of input. -/
def altViolatedSpec (pending : Bool) : List String → Bool
  | [] => pending
  | a :: rest =>
    if hasPfx a "-" then pending || altViolatedSpec true rest
    else if pending then altViolatedSpec false rest else true

/-- The spec's literal wording of path normalization: "the marker is
stripped" — exactly one leading `~` removed — "and the remainder is joined
onto the anchor directory". -/
def normalizeOnePathSpecReading (relativeTo p : String) : String :=
  if hasPfx p "~" then goJoin relativeTo ⟨p.data.drop 1⟩ else p

/-- ASCII lowercasing, to express the spec's "case-insensitive spelling". -/
def lowerAscii (s : String) : String := ⟨s.data.map Char.toLower⟩

/-! ## Helper lemmas -/

theorem strData_append (a b : String) : (a ++ b).data = a.data ++ b.data := by
  cases a; cases b; rfl

theorem numErr_head (fn input reason : String) :
    (numErr fn input reason).data.head? = some 's' := by
  have h : "strconv.".data = ['s', 't', 'r', 'c', 'o', 'n', 'v', '.'] := rfl
  simp only [numErr, strData_append, h, List.cons_append]
  rfl

theorem numErr_ne_invalid (fn input reason : String) :
    numErr fn input reason ≠ "Invalid Parameter String" := by
  intro h
  have h2 : (numErr fn input reason).data.head? =
      "Invalid Parameter String".data.head? :=
    congrArg (fun s : String => s.data.head?) h
  rw [numErr_head] at h2
  exact absurd h2 (by decide)

theorem parseIntCore_error_shape {s e : String} {neg : Bool} {ds : List Char}
    (h : parseIntCore s neg ds = .error e) :
    e = numErr "ParseInt" s "invalid syntax" ∨
      e = numErr "ParseInt" s "value out of range" := by
  unfold parseIntCore at h
  split at h
  · exact Or.inl (Except.error.inj h).symm
  · split at h
    · split at h
      · exact absurd h (by simp)
      · exact Or.inr (Except.error.inj h).symm
    · split at h
      · exact absurd h (by simp)
      · exact Or.inr (Except.error.inj h).symm

theorem parseInt64_error_shape {s e : String} (h : parseInt64 s = .error e) :
    e = numErr "ParseInt" s "invalid syntax" ∨
      e = numErr "ParseInt" s "value out of range" := by
  unfold parseInt64 at h
  split at h
  · exact Or.inl (Except.error.inj h).symm
  · split at h
    · exact parseIntCore_error_shape h
    · split at h
      · exact parseIntCore_error_shape h
      · exact parseIntCore_error_shape h

theorem parseUint64_error_shape {s e : String} (h : parseUint64 s = .error e) :
    e = numErr "ParseUint" s "invalid syntax" ∨
      e = numErr "ParseUint" s "value out of range" := by
  unfold parseUint64 at h
  split at h
  · exact Or.inl (Except.error.inj h).symm
  · split at h
    · exact absurd h (by simp)
    · exact Or.inr (Except.error.inj h).symm

theorem parseBool_error_shape {s e : String} (h : parseBool s = .error e) :
    e = numErr "ParseBool" s "invalid syntax" := by
  unfold parseBool at h
  split at h
  · exact absurd h (by simp)
  · split at h
    · exact absurd h (by simp)
    · exact (Except.error.inj h).symm

theorem setLeaf_ne_invalid (node : JValue) (value : String) :
    (setLeaf node value).2 ≠ some "Invalid Parameter String" := by
  cases node with
  | str s => simp [setLeaf]
  | int i =>
    rcases hp : parseInt64 value with e | j <;> simp [setLeaf, hp]
    rcases parseInt64_error_shape hp with h1 | h1 <;>
      exact h1 ▸ numErr_ne_invalid _ _ _
  | uint n =>
    rcases hp : parseUint64 value with e | j <;> simp [setLeaf, hp]
    rcases parseUint64_error_shape hp with h1 | h1 <;>
      exact h1 ▸ numErr_ne_invalid _ _ _
  | bool b =>
    rcases hp : parseBool value with e | j <;> simp [setLeaf, hp]
    exact (parseBool_error_shape hp) ▸ numErr_ne_invalid _ _ _
  | record fields => simp [setLeaf]
  | ptr z v => simp [setLeaf]

theorem setNodeValue_ne_invalid :
    ∀ (path : List String) (node : JValue) (value : String),
      (setNodeValue node path value).2 ≠ some "Invalid Parameter String"
  | [], node, value => setLeaf_ne_invalid node value
  | seg :: rest, node, value => by
    simp only [setNodeValue]
    rcases hd : derefNode node with s | i | n | b | fields | ⟨z, v⟩
    case record =>
      rcases hf : findTag fields seg with _ | ⟨i, f⟩
      · simp [hf]
      · simp only [hf]
        have := setNodeValue_ne_invalid rest f value
        simpa using this
    all_goals simp

theorem setParameter_ne_invalid (c : JValue) (key value : String) :
    (setParameter c key value).2 ≠ some "Invalid Parameter String" :=
  setNodeValue_ne_invalid (splitOnChar '.' key) c value

theorem runTokens_append_error :
    ∀ (xs : List String) (t : JValue) (p : Option String)
      (r : JValue × String) (ys : List String),
      runTokens t p xs = .error r → runTokens t p (xs ++ ys) = .error r
  | [], t, p, r, ys, h => by simp [runTokens] at h
  | a :: rest, t, p, r, ys, h => by
    rw [List.cons_append]
    simp only [runTokens] at h ⊢
    by_cases hf : hasPfx a "-" = true
    · rw [if_pos hf] at h ⊢
      cases p with
      | some k => exact h
      | none => exact runTokens_append_error rest t (some (trimLeftDashes a)) r ys h
    · rw [if_neg hf] at h ⊢
      cases p with
      | none => exact h
      | some k =>
        rcases hs : setParameter t k a with ⟨c2, e⟩
        simp only [hs] at h ⊢
        cases e with
        | some err => exact h
        | none => exact runTokens_append_error rest c2 none r ys h

theorem runTokens_append_ok :
    ∀ (xs : List String) (t : JValue) (p : Option String) (t1 : JValue)
      (pnd : Option String) (ys : List String),
      runTokens t p xs = .ok (t1, pnd) →
      runTokens t p (xs ++ ys) = runTokens t1 pnd ys
  | [], t, p, t1, pnd, ys, h => by
    rw [runTokens] at h
    obtain ⟨h1, h2⟩ : t = t1 ∧ p = pnd := by
      simpa using h
    rw [List.nil_append, h1, h2]
  | a :: rest, t, p, t1, pnd, ys, h => by
    rw [List.cons_append]
    simp only [runTokens] at h ⊢
    by_cases hf : hasPfx a "-" = true
    · rw [if_pos hf] at h ⊢
      cases p with
      | some k => exact absurd h (by simp)
      | none => exact runTokens_append_ok rest t (some (trimLeftDashes a)) t1 pnd ys h
    · rw [if_neg hf] at h ⊢
      cases p with
      | none => exact absurd h (by simp)
      | some k =>
        rcases hs : setParameter t k a with ⟨c2, e⟩
        simp only [hs] at h ⊢
        cases e with
        | some err => exact absurd h (by simp)
        | none => exact runTokens_append_ok rest c2 none t1 pnd ys h

theorem runTokens_ok_pending_violates :
    ∀ (xs : List String) (t : JValue) (p : Option String) (t2 : JValue)
      (k : String), runTokens t p xs = .ok (t2, some k) →
      altViolatedSpec p.isSome xs = true
  | [], t, p, t2, k, h => by
    rw [runTokens] at h
    obtain ⟨h1, h2⟩ : t = t2 ∧ p = some k := by simpa using h
    simp [altViolatedSpec, h2]
  | a :: rest, t, p, t2, k, h => by
    simp only [runTokens] at h
    rw [altViolatedSpec]
    by_cases hf : hasPfx a "-" = true
    · rw [if_pos hf] at h ⊢
      cases p with
      | some key => exact absurd h (by simp)
      | none =>
        simpa using runTokens_ok_pending_violates rest t (some (trimLeftDashes a)) t2 k h
    · rw [if_neg hf] at h ⊢
      cases p with
      | none => exact absurd h (by simp)
      | some key =>
        rcases hs : setParameter t key a with ⟨c2, e⟩
        simp only [hs] at h
        cases e with
        | some err => exact absurd h (by simp)
        | none =>
          simpa using runTokens_ok_pending_violates rest c2 none t2 k h

theorem runTokens_error_invalid_violates :
    ∀ (xs : List String) (t : JValue) (p : Option String) (t2 : JValue),
      runTokens t p xs = .error (t2, "Invalid Parameter String") →
      altViolatedSpec p.isSome xs = true
  | [], t, p, t2, h => by simp [runTokens] at h
  | a :: rest, t, p, t2, h => by
    simp only [runTokens] at h
    rw [altViolatedSpec]
    by_cases hf : hasPfx a "-" = true
    · rw [if_pos hf] at h ⊢
      cases p with
      | some key => simp
      | none =>
        simpa using runTokens_error_invalid_violates rest t (some (trimLeftDashes a)) t2 h
    · rw [if_neg hf] at h ⊢
      cases p with
      | none => simp
      | some key =>
        rcases hs : setParameter t key a with ⟨c2, e⟩
        simp only [hs] at h
        cases e with
        | some err =>
          obtain ⟨h1, h2⟩ : c2 = t2 ∧ err = "Invalid Parameter String" := by
            simpa using h
          exact absurd (h2 ▸ hs) (by
            intro hcon
            exact setParameter_ne_invalid t key a (by rw [hcon]))
        | none =>
          simpa using runTokens_error_invalid_violates rest c2 none t2 h

theorem findTag_none :
    ∀ (fields : List (String × JValue)) (seg : String),
      (∀ q ∈ fields, q.1 ≠ seg) → findTag fields seg = none
  | [], _, _ => rfl
  | (t, g) :: rest, seg, h => by
    have ht : t ≠ seg := h (t, g) (by simp)
    rw [findTag]
    by_cases hskip : t = "" ∨ t = "-"
    · rw [if_pos hskip, findTag_none rest seg fun q hq => h q (by simp [hq])]
      rfl
    · rw [if_neg hskip, if_neg ht,
        findTag_none rest seg fun q hq => h q (by simp [hq])]
      rfl

theorem findTag_first (seg : String) (h1 : seg ≠ "") (h2 : seg ≠ "-") :
    ∀ (pre : List (String × JValue)) (f : JValue)
      (post : List (String × JValue)), (∀ q ∈ pre, q.1 ≠ seg) →
      findTag (pre ++ (seg, f) :: post) seg = some (pre.length, f)
  | [], f, post, _ => by
    rw [List.nil_append, findTag, if_neg (by simp [h1, h2]), if_pos rfl]
    rfl
  | (t, g) :: pre, f, post, hpre => by
    have ht : t ≠ seg := hpre (t, g) (by simp)
    rw [List.cons_append, findTag]
    by_cases hskip : t = "" ∨ t = "-"
    · rw [if_pos hskip,
        findTag_first seg h1 h2 pre f post fun q hq => hpre q (by simp [hq])]
      simp
    · rw [if_neg hskip, if_neg ht,
        findTag_first seg h1 h2 pre f post fun q hq => hpre q (by simp [hq])]
      simp

theorem setLen_append (pre : List (String × JValue)) (x y : String × JValue)
    (post : List (String × JValue)) :
    (pre ++ x :: post).set pre.length y = pre ++ y :: post := by
  induction pre with
  | nil => rfl
  | cons a pre ih => simp [List.set, ih]

theorem setNodeValue_record_cons (fields : List (String × JValue)) (seg : String)
    (rest : List String) (value : String) :
    setNodeValue (.record fields) (seg :: rest) value =
      match findTag fields seg with
      | some (i, f) =>
        (.record (fields.set i (seg, (setNodeValue f rest value).1)),
          (setNodeValue f rest value).2)
      | none => (.record fields, some "Path not found in config") := rfl

theorem parseIntCore_ok_range {s : String} {neg : Bool} {ds : List Char}
    {n : Int} (h : parseIntCore s neg ds = .ok n) :
    -(2 ^ 63) ≤ n ∧ n ≤ 2 ^ 63 - 1 := by
  unfold parseIntCore at h
  split at h
  · exact absurd h (by simp)
  · rename_i m hm
    split at h
    · split at h
      · rename_i hle
        obtain rfl : -(m : Int) = n := Except.ok.inj h
        omega
      · exact absurd h (by simp)
    · split at h
      · rename_i hle
        obtain rfl : (m : Int) = n := Except.ok.inj h
        omega
      · exact absurd h (by simp)

theorem parseInt64_ok_range {s : String} {n : Int} (h : parseInt64 s = .ok n) :
    -(2 ^ 63) ≤ n ∧ n ≤ 2 ^ 63 - 1 := by
  unfold parseInt64 at h
  split at h
  · exact absurd h (by simp)
  · split at h
    · exact parseIntCore_ok_range h
    · split at h
      · exact parseIntCore_ok_range h
      · exact parseIntCore_ok_range h

/-! ## The claims -/

/-- C1 (amended): at a record node, `setNodeValue` scans the fields in
declaration order for the first one whose serialization key equals (by exact,
case-sensitive string equality) the next path segment and recurses into it,
leaving all other fields untouched; if no field's key equals the segment the
call fails with the `PathNotFoundError` message, the fixed string
`"Path not found in config"` — which, contrary to the original claim, names
neither the requested path nor the failing segment. -/
theorem C1_record_scan :
    (∀ (pre post : List (String × JValue)) (f : JValue) (seg : String)
        (rest : List String) (value : String),
        seg ≠ "" → seg ≠ "-" → (∀ q ∈ pre, q.1 ≠ seg) →
        setNodeValue (.record (pre ++ (seg, f) :: post)) (seg :: rest) value =
          (.record (pre ++ (seg, (setNodeValue f rest value).1) :: post),
            (setNodeValue f rest value).2))
    ∧ (∀ (fields : List (String × JValue)) (seg : String) (rest : List String)
        (value : String), (∀ q ∈ fields, q.1 ≠ seg) →
        setNodeValue (.record fields) (seg :: rest) value =
          (.record fields, some "Path not found in config")) := by
  constructor
  · intro pre post f seg rest value h1 h2 hpre
    rw [setNodeValue_record_cons, findTag_first seg h1 h2 pre f post hpre]
    have hset := setLen_append pre (seg, f)
      (seg, (setNodeValue f rest value).1) post
    simp [hset]
  · intro fields seg rest value h
    rw [setNodeValue_record_cons, findTag_none fields seg h]

/-- C1, counterexample to the original claim: the `PathNotFoundError` does not
name the requested path or the failing segment — distinct failing paths
produce the identical error value, a constant string that contains neither the
path nor the segment as a substring. -/
theorem C1_counterexample :
    (ReadParameters defaultDecoded ["-server.nosegment", "x"]).2 =
      some "Path not found in config"
    ∧ (ReadParameters defaultDecoded ["-redis.missing", "y"]).2 =
      (ReadParameters defaultDecoded ["-server.nosegment", "x"]).2
    ∧ ¬ ("nosegment".data <:+: "Path not found in config".data)
    ∧ ¬ ("server.nosegment".data <:+: "Path not found in config".data) :=
  ⟨rfl, rfl, by decide, by decide⟩

/-- C1, witness: the first matching field (`username`, matched exactly) is
updated in place; a segment differing only in case (`Username`) matches no
field and yields the constant path-not-found error. -/
theorem C1_witness :
    setNodeValue (.record [("username", JValue.str ""), ("password", JValue.str "")])
        ["username"] "alice" =
      (.record [("username", JValue.str "alice"), ("password", JValue.str "")], none)
    ∧ setNodeValue (.record [("username", JValue.str ""), ("password", JValue.str "")])
        ["Username"] "x" =
      (.record [("username", JValue.str ""), ("password", JValue.str "")],
        some "Path not found in config") :=
  ⟨(C1_record_scan.1 [] [("password", JValue.str "")] (JValue.str "")
      "username" [] "alice" (by decide) (by decide) (by simp)).trans rfl,
   C1_record_scan.2 [("username", JValue.str ""), ("password", JValue.str "")]
      "Username" [] "x" (by decide)⟩

/-- C2 (amended): tokens are scanned left to right, a token beginning with
`-` is a flag and any other token a value; `ArgumentSyntaxError` (the message
`"Invalid Parameter String"`) is returned for two consecutive flag tokens, a
value token with no pending flag, and a trailing unconsumed flag — but a
trailing-flag stream is only reported as such if every earlier `(path, value)`
pair applies successfully: in `["-a", "v1", "-b"]` the pair `(a, v1)` is
applied first and fails with `PathNotFoundError` instead (see the
counterexample).  Conversely, whenever `ArgumentSyntaxError` is returned the
alternation rule was indeed violated. -/
theorem C2_tokenization :
    (∀ (t : JValue) (a b : String) (rest : List String),
        hasPfx a "-" = true → hasPfx b "-" = true →
        readParametersTree t (a :: b :: rest) =
          (t, some "Invalid Parameter String"))
    ∧ (∀ (t : JValue) (v : String) (rest : List String), hasPfx v "-" = false →
        readParametersTree t (v :: rest) = (t, some "Invalid Parameter String"))
    ∧ (∀ (t t1 : JValue) (xs : List String) (a : String),
        runTokens t none xs = .ok (t1, none) → hasPfx a "-" = true →
        readParametersTree t (xs ++ [a]) =
          (t1, some "Invalid Parameter String"))
    ∧ (∀ (t : JValue) (args : List String),
        (readParametersTree t args).2 = some "Invalid Parameter String" →
        altViolatedSpec false args = true)
    ∧ ReadParameters defaultDecoded ["-a", "-b", "v"] =
        (reflectRoot defaultDecoded, some "Invalid Parameter String")
    ∧ ReadParameters defaultDecoded ["v"] =
        (reflectRoot defaultDecoded, some "Invalid Parameter String") := by
  refine ⟨?_, ?_, ?_, ?_, rfl, rfl⟩
  · intro t a b rest ha hb
    simp [readParametersTree, runTokens, ha, hb]
  · intro t v rest hv
    simp [readParametersTree, runTokens, hv]
  · intro t t1 xs a hok ha
    unfold readParametersTree
    rw [runTokens_append_ok xs t none t1 none [a] hok]
    simp [runTokens, ha]
  · intro t args h
    unfold readParametersTree at h
    rcases hr : runTokens t none args with ⟨t2, e⟩ | ⟨t2, pnd⟩
    · rw [hr] at h
      simp at h
      subst h
      simpa using runTokens_error_invalid_violates args t none t2 hr
    · rw [hr] at h
      cases pnd with
      | some k => simpa using runTokens_ok_pending_violates args t none t2 k hr
      | none => simp at h

/-- C2, counterexample to the original claim: `["-a", "v1", "-b"]` does not
fail with `ArgumentSyntaxError` — the pair `(a, v1)` is applied before the
trailing flag is seen, and fails with the `PathNotFoundError` message. -/
theorem C2_counterexample :
    ReadParameters defaultDecoded ["-a", "v1", "-b"] =
      (reflectRoot defaultDecoded, some "Path not found in config")
    ∧ "Path not found in config" ≠ "Invalid Parameter String" :=
  ⟨rfl, by decide⟩

/-- C2, witness: the two genuinely malformed streams of the claim fail with
`ArgumentSyntaxError`, as does a trailing flag behind a successful pair; the
alternation-violation predicate holds of the first stream. -/
theorem C2_witness :
    readParametersTree (reflectRoot defaultDecoded) ["-a", "-b", "v"] =
      (reflectRoot defaultDecoded, some "Invalid Parameter String")
    ∧ readParametersTree (reflectRoot defaultDecoded) ["v"] =
      (reflectRoot defaultDecoded, some "Invalid Parameter String")
    ∧ readParametersTree (reflectRoot defaultDecoded) (["-verbose", "true"] ++ ["-b"]) =
      (reflectRoot { defaultDecoded with Verbose := true },
        some "Invalid Parameter String")
    ∧ altViolatedSpec false ["-a", "-b", "v"] = true :=
  ⟨C2_tokenization.1 (reflectRoot defaultDecoded) "-a" "-b" ["v"] rfl rfl,
   C2_tokenization.2.1 (reflectRoot defaultDecoded) "v" [] rfl,
   C2_tokenization.2.2.1 (reflectRoot defaultDecoded)
     (reflectRoot { defaultDecoded with Verbose := true })
     ["-verbose", "true"] "-b" (by rfl) rfl,
   C2_tokenization.2.2.2.1 (reflectRoot defaultDecoded) ["-a", "-b", "v"]
     (by rfl)⟩

/-- C3: descending into the absent optional `server.auth` sub-record
allocates its zero value and writes it through to the parent, so applying
`-server.auth.username u -server.auth.password p` to a tree with absent auth
yields a present auth sub-record with exactly those two fields set. -/
theorem C3_optional_allocation (c : ConfigRoot) (u p : String)
    (hAuth : c.Server.Auth = none)
    (h1 : hasPfx u "-" = false) (h2 : hasPfx p "-" = false) :
    ReadParameters c ["-server.auth.username", u, "-server.auth.password", p] =
      (reflectRoot { c with Server := { c.Server with
        Auth := some { Username := u, Password := p } } }, none) := by
  have ha : hasPfx "-server.auth.username" "-" = true := rfl
  have hb : hasPfx "-server.auth.password" "-" = true := rfl
  simp [ReadParameters, readParametersTree, runTokens, h1, h2, ha, hb, hAuth,
    setParameter, splitOnChar, splitOnCharAux, trimLeftDashes, setNodeValue,
    derefNode, rewrap, findTag, setLeaf, reflectRoot, reflectServer,
    reflectPaths, reflectRedis, reflectMail, reflectMailTemplates,
    reflectMailTemplate, reflectAuth, zeroAuth, List.set]

/-- C3, witness: the spec's concrete credentials. -/
theorem C3_witness :
    ReadParameters defaultDecoded
        ["-server.auth.username", "alice", "-server.auth.password", "s3cr3t"] =
      (reflectRoot { defaultDecoded with Server := { defaultDecoded.Server with
        Auth := some { Username := "alice", Password := "s3cr3t" } } }, none) :=
  C3_optional_allocation defaultDecoded "alice" "s3cr3t" rfl rfl rfl

/-- C4 (amended): an override of the boolean leaf `server.cors` succeeds
exactly when the value is one of the twelve spellings Go's `ParseBool`
accepts — `1`, `t`, `T`, `TRUE`, `true`, `True` (setting true) and `0`, `f`,
`F`, `FALSE`, `false`, `False` (setting false); every other string, including
case-insensitive spellings of the canonical forms such as `TrUe`, fails with
a `TypeCoercionError`. -/
theorem C4_bool_coercion :
    (∀ (c : ConfigRoot) (v : String), hasPfx v "-" = false →
        ReadParameters c ["-server.cors", v] =
          match parseBool v with
          | .ok b => (reflectRoot { c with Server := { c.Server with CORS := b } }, none)
          | .error e => (reflectRoot c, some e))
    ∧ (∀ s, parseBool s = .ok true ↔
        s ∈ (["1", "t", "T", "TRUE", "true", "True"] : List String))
    ∧ (∀ s, parseBool s = .ok false ↔
        s ∈ (["0", "f", "F", "FALSE", "false", "False"] : List String)) := by
  refine ⟨?_, ?_, ?_⟩
  · intro c v hv
    have ha : hasPfx "-server.cors" "-" = true := rfl
    rcases hpb : parseBool v with e | b <;>
      simp [ReadParameters, readParametersTree, runTokens, hv, ha, hpb,
        setParameter, splitOnChar, splitOnCharAux, trimLeftDashes,
        setNodeValue, derefNode, rewrap, findTag, setLeaf, reflectRoot,
        reflectServer, reflectPaths, reflectRedis, reflectMail,
        reflectMailTemplates, reflectMailTemplate, List.set]
  · intro s
    unfold parseBool
    split
    · simp_all
    · split <;> simp_all
  · intro s
    unfold parseBool
    split
    · rename_i hc
      rcases hc with rfl | rfl | rfl | rfl | rfl | rfl <;> simp
    · split <;> simp_all

/-- C4, counterexample to the original claim: `TrUe` is a case-insensitive
spelling of the canonical form `true`, yet the override rejects it. -/
theorem C4_counterexample :
    lowerAscii "TrUe" = lowerAscii "true"
    ∧ (ReadParameters defaultDecoded ["-server.cors", "TrUe"]).2 =
      some (numErr "ParseBool" "TrUe" "invalid syntax") :=
  ⟨by decide, rfl⟩

/-- C4, witness: `yes` is rejected, `true` and `1` both set the field. -/
theorem C4_witness :
    ReadParameters defaultDecoded ["-server.cors", "yes"] =
      (reflectRoot defaultDecoded, some (numErr "ParseBool" "yes" "invalid syntax"))
    ∧ ReadParameters defaultDecoded ["-server.cors", "true"] =
      (reflectRoot { defaultDecoded with Server :=
        { defaultDecoded.Server with CORS := true } }, none)
    ∧ ReadParameters defaultDecoded ["-server.cors", "1"] =
      (reflectRoot { defaultDecoded with Server :=
        { defaultDecoded.Server with CORS := true } }, none) :=
  ⟨(C4_bool_coercion.1 defaultDecoded "yes" rfl).trans rfl,
   (C4_bool_coercion.1 defaultDecoded "true" rfl).trans rfl,
   (C4_bool_coercion.1 defaultDecoded "1" rfl).trans rfl⟩

/-- C5: an override of the integer leaf `redis.index` parses the value as a
base-10 integer at the field's 64-bit width: it succeeds, storing the parsed
integer, exactly when `ParseInt` does, and every accepted value lies within
the signed 64-bit range; non-numeric input and 64-bit overflow fail with a
`TypeCoercionError`. -/
theorem C5_int_coercion :
    (∀ (c : ConfigRoot) (v : String), hasPfx v "-" = false →
        ReadParameters c ["-redis.index", v] =
          match parseInt64 v with
          | .ok i => (reflectRoot { c with Redis := { c.Redis with DbIndex := i } }, none)
          | .error e => (reflectRoot c, some e))
    ∧ (∀ (s : String) (n : Int), parseInt64 s = .ok n →
        -(2 ^ 63) ≤ n ∧ n ≤ 2 ^ 63 - 1)
    ∧ parseInt64 "9223372036854775807" = .ok 9223372036854775807
    ∧ parseInt64 "9223372036854775808" =
        .error (numErr "ParseInt" "9223372036854775808" "value out of range") := by
  refine ⟨?_, fun s n h => parseInt64_ok_range h, rfl, rfl⟩
  intro c v hv
  have ha : hasPfx "-redis.index" "-" = true := rfl
  rcases hpi : parseInt64 v with e | i <;>
    simp [ReadParameters, readParametersTree, runTokens, hv, ha, hpi,
      setParameter, splitOnChar, splitOnCharAux, trimLeftDashes, setNodeValue,
      derefNode, rewrap, findTag, setLeaf, reflectRoot, reflectServer,
      reflectPaths, reflectRedis, reflectMail, reflectMailTemplates,
      reflectMailTemplate, List.set]

/-- C5, witness: `notanumber` fails with a `TypeCoercionError`, `3` stores
the integer 3. -/
theorem C5_witness :
    ReadParameters defaultDecoded ["-redis.index", "notanumber"] =
      (reflectRoot defaultDecoded,
        some (numErr "ParseInt" "notanumber" "invalid syntax"))
    ∧ ReadParameters defaultDecoded ["-redis.index", "3"] =
      (reflectRoot { defaultDecoded with Redis :=
        { defaultDecoded.Redis with DbIndex := 3 } }, none) :=
  ⟨(C5_int_coercion.1 defaultDecoded "notanumber" rfl).trans rfl,
   (C5_int_coercion.1 defaultDecoded "3" rfl).trans rfl⟩

/-- C6: the first error aborts `ReadParameters` immediately — an error while
processing a prefix of the argument stream is the result of the whole stream,
the remaining tokens are never processed, and the tree state at the error
(including all mutations by earlier overrides) is returned as is; concretely,
a failing second override leaves the first override's write in place and the
third override unapplied. -/
theorem C6_first_error_aborts :
    (∀ (xs ys : List String) (t : JValue) (p : Option String)
        (r : JValue × String), runTokens t p xs = .error r →
        runTokens t p (xs ++ ys) = .error r)
    ∧ (∀ (xs ys : List String) (t t2 : JValue) (e : String),
        runTokens t none xs = .error (t2, e) →
        readParametersTree t (xs ++ ys) = (t2, some e))
    ∧ ReadParameters defaultDecoded
        ["-server.address", "1.2.3.4:80", "-redis.index", "notanumber",
          "-server.cors", "false"] =
      (reflectRoot { defaultDecoded with Server :=
        { defaultDecoded.Server with Address := "1.2.3.4:80" } },
        some (numErr "ParseInt" "notanumber" "invalid syntax")) := by
  refine ⟨fun xs ys t p r h => runTokens_append_error xs t p r ys h, ?_, rfl⟩
  intro xs ys t t2 e h
  unfold readParametersTree
  rw [runTokens_append_error xs t none (t2, e) ys h]

/-- C6, witness: a prefix that fails propagates its error and state past an
appended suffix. -/
theorem C6_witness :
    readParametersTree (reflectRoot defaultDecoded)
        (["-redis.index", "oops"] ++ ["-server.cors", "false"]) =
      (reflectRoot defaultDecoded,
        some (numErr "ParseInt" "oops" "invalid syntax")) :=
  C6_first_error_aborts.2.1 ["-redis.index", "oops"] ["-server.cors", "false"]
    (reflectRoot defaultDecoded) (reflectRoot defaultDecoded)
    (numErr "ParseInt" "oops" "invalid syntax") (by rfl)

/-- C7: overrides are applied strictly left to right — a successfully
processed prefix simply becomes the start state for the rest of the stream —
and two overrides of the same path leave the later value in the field
(last-write-wins, no error). -/
theorem C7_last_write_wins :
    (∀ (xs ys : List String) (t t1 : JValue) (pnd : Option String),
        runTokens t none xs = .ok (t1, pnd) →
        runTokens t none (xs ++ ys) = runTokens t1 pnd ys)
    ∧ (∀ (c : ConfigRoot) (v1 v2 : String),
        hasPfx v1 "-" = false → hasPfx v2 "-" = false →
        ReadParameters c ["-server.address", v1, "-server.address", v2] =
          (reflectRoot { c with Server := { c.Server with Address := v2 } },
            none)) := by
  constructor
  · exact fun xs ys t t1 pnd h => runTokens_append_ok xs t none t1 pnd ys h
  · intro c v1 v2 h1 h2
    have ha : hasPfx "-server.address" "-" = true := rfl
    simp [ReadParameters, readParametersTree, runTokens, h1, h2, ha,
      setParameter, splitOnChar, splitOnCharAux, trimLeftDashes, setNodeValue,
      derefNode, rewrap, findTag, setLeaf, reflectRoot, reflectServer,
      reflectPaths, reflectRedis, reflectMail, reflectMailTemplates,
      reflectMailTemplate, List.set]

/-- C7, witness: the spec's concrete pair of addresses; the field ends at
`5.6.7.8:90`. -/
theorem C7_witness :
    ReadParameters defaultDecoded
        ["-server.address", "1.2.3.4:80", "-server.address", "5.6.7.8:90"] =
      (reflectRoot { defaultDecoded with Server :=
        { defaultDecoded.Server with Address := "5.6.7.8:90" } }, none) :=
  C7_last_write_wins.2 defaultDecoded "1.2.3.4:80" "5.6.7.8:90" rfl rfl

/-- C8: a path that is exhausted while the current node is a record fails
with `IncompletePathError` (the message `"Leaf node is a struct"`) and leaves
the tree unchanged — a record node is never a valid override leaf. -/
theorem C8_record_not_leaf :
    (∀ (fields : List (String × JValue)) (value : String),
        setNodeValue (.record fields) [] value =
          (.record fields, some "Leaf node is a struct"))
    ∧ (∀ (c : ConfigRoot) (v : String), hasPfx v "-" = false →
        ReadParameters c ["-server", v] =
          (reflectRoot c, some "Leaf node is a struct"))
    ∧ (∀ (c : ConfigRoot) (v : String), hasPfx v "-" = false →
        ReadParameters c ["-mail.templates", v] =
          (reflectRoot c, some "Leaf node is a struct")) := by
  refine ⟨fun fields value => rfl, ?_, ?_⟩
  · intro c v hv
    have ha : hasPfx "-server" "-" = true := rfl
    simp [ReadParameters, readParametersTree, runTokens, hv, ha, setParameter,
      splitOnChar, splitOnCharAux, trimLeftDashes, setNodeValue, derefNode,
      rewrap, findTag, setLeaf, reflectRoot, reflectServer, reflectPaths,
      reflectRedis, reflectMail, reflectMailTemplates, reflectMailTemplate,
      List.set]
  · intro c v hv
    have ha : hasPfx "-mail.templates" "-" = true := rfl
    simp [ReadParameters, readParametersTree, runTokens, hv, ha, setParameter,
      splitOnChar, splitOnCharAux, trimLeftDashes, setNodeValue, derefNode,
      rewrap, findTag, setLeaf, reflectRoot, reflectServer, reflectPaths,
      reflectRedis, reflectMail, reflectMailTemplates, reflectMailTemplate,
      List.set]

/-- C8, witness: `-server x` fails with the incomplete-path error and the
tree is unchanged. -/
theorem C8_witness :
    ReadParameters defaultDecoded ["-server", "x"] =
      (reflectRoot defaultDecoded, some "Leaf node is a struct") :=
  C8_record_not_leaf.2.1 defaultDecoded "x" rfl

/-- C9 (amended): after loading, each of the three path fields `databases`,
`results` and `mmseqs` that starts with the `~` marker has **all** leading
`~` characters stripped (`strings.TrimLeft`, not a single-marker strip) and
the remainder joined onto the anchor directory; values without the marker,
and the `temporary` field, are left unchanged; with anchor `/opt/app` the
value `~databases` resolves to `/opt/app/databases`. -/
theorem C9_path_normalization :
    (∀ (rel p : String), hasPfx p "~" = false → normalizeOnePath rel p = p)
    ∧ (∀ (rel p : String), hasPfx p "~" = true →
        normalizeOnePath rel p = goJoin rel (trimLeftTildes p))
    ∧ (∀ (c : ConfigRoot) (rel : String),
        (readConfigNormalize c rel).Paths.Databases =
          normalizeOnePath rel c.Paths.Databases
        ∧ (readConfigNormalize c rel).Paths.Results =
          normalizeOnePath rel c.Paths.Results
        ∧ (readConfigNormalize c rel).Paths.Mmseqs =
          normalizeOnePath rel c.Paths.Mmseqs
        ∧ (readConfigNormalize c rel).Paths.Temporary = c.Paths.Temporary
        ∧ (readConfigNormalize c rel).Server = c.Server
        ∧ (readConfigNormalize c rel).Redis = c.Redis
        ∧ (readConfigNormalize c rel).Mail = c.Mail
        ∧ (readConfigNormalize c rel).Verbose = c.Verbose)
    ∧ normalizeOnePath "/opt/app" "~databases" = "/opt/app/databases" := by
  refine ⟨?_, ?_, fun c rel => ⟨rfl, rfl, rfl, rfl, rfl, rfl, rfl, rfl⟩,
    by decide⟩
  · intro rel p h
    simp [normalizeOnePath, h]
  · intro rel p h
    simp [normalizeOnePath, h]

/-- C9, counterexample to the original claim: for the value `~~databases` the
code strips *all* leading markers and resolves to `/opt/app/databases`,
whereas stripping "the marker" and joining the remainder, as the claim words
it, would give `/opt/app/~databases`. -/
theorem C9_counterexample :
    (readConfigNormalize { defaultDecoded with Paths :=
        { defaultDecoded.Paths with Databases := "~~databases" } }
        "/opt/app").Paths.Databases = "/opt/app/databases"
    ∧ normalizeOnePathSpecReading "/opt/app" "~~databases" = "/opt/app/~databases"
    ∧ ("/opt/app/databases" : String) ≠ "/opt/app/~databases" :=
  ⟨by decide, by decide, by decide⟩

/-- C9, witness: a marker-free value is untouched; the spec's concrete anchor
resolution holds. -/
theorem C9_witness :
    normalizeOnePath "/opt/app" "databases" = "databases"
    ∧ normalizeOnePath "/opt/app" "~databases" =
      goJoin "/opt/app" (trimLeftTildes "~databases") :=
  ⟨C9_path_normalization.1 "/opt/app" "databases" rfl,
   C9_path_normalization.2.1 "/opt/app" "~databases" rfl⟩

/-- C10: a failing override is not atomic: `-server.auth.nosuchfield x` on a
tree with absent auth returns the path-not-found error, yet the returned tree
differs from the input — the optional auth sub-record was allocated and
written through to its parent before path resolution failed. -/
theorem C10_failed_override_mutates (c : ConfigRoot)
    (hAuth : c.Server.Auth = none) :
    ReadParameters c ["-server.auth.nosuchfield", "x"] =
      (reflectRoot { c with Server := { c.Server with Auth := some zeroAuth } },
        some "Path not found in config")
    ∧ reflectRoot { c with Server := { c.Server with Auth := some zeroAuth } } ≠
      reflectRoot c := by
  constructor
  · have ha : hasPfx "-server.auth.nosuchfield" "-" = true := rfl
    have hx : hasPfx "x" "-" = false := rfl
    simp [ReadParameters, readParametersTree, runTokens, ha, hx, hAuth,
      setParameter, splitOnChar, splitOnCharAux, trimLeftDashes, setNodeValue,
      derefNode, rewrap, findTag, setLeaf, reflectRoot, reflectServer,
      reflectPaths, reflectRedis, reflectMail, reflectMailTemplates,
      reflectMailTemplate, reflectAuth, zeroAuth, List.set]
  · intro h
    simp [reflectRoot, reflectServer, reflectPaths, reflectRedis, reflectMail,
      reflectMailTemplates, reflectMailTemplate, reflectAuth, hAuth] at h

/-- C10, witness: the default configuration has absent auth, so the failing
override both errors and mutates the tree. -/
theorem C10_witness :
    ReadParameters defaultDecoded ["-server.auth.nosuchfield", "x"] =
      (reflectRoot { defaultDecoded with Server :=
        { defaultDecoded.Server with Auth := some zeroAuth } },
        some "Path not found in config")
    ∧ reflectRoot { defaultDecoded with Server :=
        { defaultDecoded.Server with Auth := some zeroAuth } } ≠
      reflectRoot defaultDecoded :=
  C10_failed_override_mutates defaultDecoded rfl

end ConfigGo
